import Mathlib

/-!
Verification of the `Data` class in `lenstronomy/Data/imaging_data.py`.

Shallow embedding conventions:
* numpy 1-D arrays are `List ℚ` (every float input is a rational; the claims
  under study are exact value-level properties, so exact rational arithmetic
  is the model of the float arithmetic).
* numpy 2-D arrays are `List (List ℚ)` (a list of rows).
* numpy elementwise binary operations on two 1-D arrays follow the numpy
  broadcasting rule for same-rank operands: equal lengths operate pointwise,
  a length-1 operand is stretched, and any other length mismatch raises a
  `ValueError`; this is `npBinOp`, returning `none` for the error case.
* in-place numpy updates (`a[cond] = v`) are modelled by functions returning
  the array content the caller observes after the call.
* Python exceptions that the claims talk about are the `PyErr` type and
  fallible code returns `Except PyErr` or `Option`.
* the `astrofunc.util` helpers (`array2image`, `image2array`) used by the
  source are plain row-major reshape/flatten between a 1-D array and a 2-D
  image; they are out-of-scope external utilities and are modelled as
  `chunkRows`/`List.flatten`.  The convolution and resampling externals
  (`util.re_size`, `scipy` convolutions, `util.subgrid_kernel`,
  `util.cut_psf`, `astrofunc.util.FFTConvolve`) are opaque to the claims and
  are passed in as an explicit `ExtOps` bundle of functions.
-/

/-- Rows of width `w` of a flat list: the row-major reshape used by
`astrofunc.util.array2image` (external helper; `nx` rows of `ny` entries). -/
def chunkRows (w : ℕ) : List α → List (List α)
  | [] => []
  | x :: xs => if w = 0 then [] else ((x :: xs).take w) :: chunkRows w ((x :: xs).drop w)
termination_by l => l.length
decreasing_by simp; omega

/-- External helper `astrofunc.util.array2image(array, nx, ny)`: row-major
reshape of a flat array into `nx` rows of `ny` entries (the row count is
implicit in the data length). -/
def util_array2image (a : List ℚ) (_nx ny : ℕ) : List (List ℚ) := chunkRows ny a

/-- External helper `astrofunc.util.image2array(image)`: row-major flatten. -/
def util_image2array (img : List (List ℚ)) : List ℚ := img.flatten

/-- Numpy elementwise binary operation on two 1-D arrays with same-rank
broadcasting: equal lengths act pointwise, a length-1 operand is stretched,
any other mismatch raises `ValueError` (modelled as `none`). -/
def npBinOp (op : ℚ → ℚ → ℚ) (a b : List ℚ) : Option (List ℚ) :=
  if a.length = b.length then some (List.zipWith op a b)
  else if a.length = 1 then some (b.map (op a.headI))
  else if b.length = 1 then some (a.map (fun x => op x b.headI))
  else none

/-- Numpy boolean selection `v[mask == 1]`: keeps the entries of `v` at the
positions where `mask` equals 1 (the two arrays have the same length in every
use in the source). -/
def filterByMask : List ℚ → List ℚ → List ℚ
  | m :: ms, x :: xs => if m = 1 then x :: filterByMask ms xs else filterByMask ms xs
  | _, _ => []

/-- Numpy boolean scatter `grid1d = zeros(n); grid1d[mask == 1] = vals`: a
zero array of the mask's length with `vals` written, in order, at the
positions where `mask` equals 1. -/
def scatterByMask : List ℚ → List ℚ → List ℚ
  | [], _ => []
  | m :: ms, vals =>
    if m = 1 then vals.headI :: scatterByMask ms vals.tail
    else 0 :: scatterByMask ms vals

/-- Numpy `np.repeat(a, k)` on a 1-D array (each element repeated `k` times
in place); with `α := List ℚ` it is also `np.repeat(img, k, axis=0)` (each
row repeated `k` times). -/
def np_repeat : List α → ℕ → List α
  | [], _ => []
  | x :: xs, k => List.replicate k x ++ np_repeat xs k

/-- Exposure information: `exp_time` scalar or per-pixel exposure map, the
runtime `isinstance(f, int/float)` distinction of the source. -/
inductive ExposureInfo where
  | scalar (t : ℚ)
  | map (m : List ℚ)

/-- Python exceptions raised by the embedded code. -/
inductive PyErr where
  | keyError (k : String)
  | valueError (s : String)

/-- The kwargs dict passed to `psf_convolution` / `re_size_convolve`: one
optional field per dictionary key the source reads.  A field is `none`
exactly when the key is absent from the dict.  Note the source checks the
presence of the key `kernel_fft` but then reads the key `kernel_pixel_fft`;
both are therefore separate fields. -/
structure PSFKwargs where
  psf_type : Option String
  sigma : Option ℚ
  truncate : Option ℚ
  kernel_pixel : Option (List (List ℚ))
  kernel_point_source : Option (List (List ℚ))
  kernel_fft : Option (List (List ℚ))
  kernel_pixel_fft : Option (List (List ℚ))

/-- The external numeric collaborators the source calls (out of scope per the
spec, supplied as opaque-to-the-claims functions): `util.re_size` (block
binning), `scipy.ndimage` Gaussian filter, `scipy.signal.fftconvolve`
(general convolution, total), the module-level `FFTConvolve().fftconvolve`
precomputed-kernel fast path (which may raise: `none` models any raised
exception, caught by the bare `except`), `util.subgrid_kernel` and
`util.cut_psf`. -/
structure ExtOps where
  re_size : List (List ℚ) → ℕ → List (List ℚ)
  gaussian_filter : List (List ℚ) → ℚ → ℚ → List (List ℚ)
  signal_fftconvolve : List (List ℚ) → List (List ℚ) → List (List ℚ)
  fft_fftconvolve : List (List ℚ) → List (List ℚ) → List (List ℚ) → Option (List (List ℚ))
  subgrid_kernel : List (List ℚ) → ℕ → List (List ℚ)
  cut_psf : List (List ℚ) → ℕ → List (List ℚ)

/-- The state of a constructed `Data` object: the attributes set by
`Data.__init__` that the queries under study read.  `deltaPix` stands for the
pixel size delivered by the out-of-scope `Coordinates` collaborator. -/
structure DataStore where
  _data : List ℚ
  _idex_mask : List ℚ
  _idex_mask_bool : Bool
  _idex_mask_sub : List ℚ
  C_D : List ℚ
  _mask : List ℚ
  _mask_lens_light : List ℚ
  _lens_light_mask : Bool
  _nx : ℕ
  _ny : ℕ
  _subgrid_res : ℕ
  _psf_subgrid : Bool
  deltaPix : ℚ

/-- Property `Data.mask`: the lens-light mask when the `lens_light_mask` mode
flag is set, the general mask otherwise. -/
def DataStore.mask (D : DataStore) : List ℚ :=
  if D._lens_light_mask then D._mask_lens_light else D._mask

/-- Method `Data._subgrid_idex(idex_mask, subgrid_res, nx, ny)`: elementwise
`np.repeat` by `subgrid_res`, reshape to `(nx, ny*subgrid_res)`, row-wise
`np.repeat` by `subgrid_res` along axis 0, flatten. -/
def _subgrid_idex (idex_mask : List ℚ) (subgrid_res nx ny : ℕ) : List ℚ :=
  let idex_sub := np_repeat idex_mask subgrid_res
  let idex_img := util_array2image idex_sub nx (ny * subgrid_res)
  let idex_img2 := np_repeat idex_img subgrid_res
  util_image2array idex_img2

/-- Method `Data.array2image(array, subrid_res)`: scatter an active 1-D array
into a zero full grid through the index mask (the subgrid mask when
`subrid_res > 1`) when an index mask was supplied, then reshape to the
`(nx*subrid_res, ny*subrid_res)` image. -/
def DataStore.array2image (D : DataStore) (array : List ℚ) (subrid_res : ℕ) : List (List ℚ) :=
  let nx := D._nx * subrid_res
  let ny := D._ny * subrid_res
  let grid1d :=
    if D._idex_mask_bool then
      scatterByMask (if 1 < subrid_res then D._idex_mask_sub else D._idex_mask) array
    else array
  util_array2image grid1d nx ny

/-- Method `Data.image2array(image)`: flatten the image and keep the entries
selected by the index mask when one was supplied. -/
def DataStore.image2array (D : DataStore) (image : List (List ℚ)) : List ℚ :=
  let array := util_image2array image
  if D._idex_mask_bool then filterByMask D._idex_mask array else array

/-- Source lines 207-209 of `covariance_matrix`: the mean-based floor applied
in place to an exposure map, `f[f < mean(f)/10] = mean(f)/10`.  (For an empty
map numpy's mean is undefined; the rational model evaluates `0/0 = 0`, and no
claim touches that degenerate case.) -/
def clampMap (f : List ℚ) : List ℚ :=
  let mean_exp_time := f.sum / (f.length : ℚ)
  f.map (fun x => if x < mean_exp_time / 10 then mean_exp_time / 10 else x)

/-- Source lines 204-209 of `covariance_matrix`: scalar exposure `f <= 0` is
replaced by 1; an exposure map gets the in-place mean-based floor. -/
def clampExposure : ExposureInfo → ExposureInfo
  | .scalar t => .scalar (if t ≤ 0 then 1 else t)
  | .map f => .map (clampMap f)

/-- Numpy `np.max(f)` for the scalar/array exposure (`np.max` of an empty
array raises; the model returns 0 there, a case no claim exercises). -/
def expMax : ExposureInfo → ℚ
  | .scalar t => t
  | .map f =>
    match f with
    | [] => 0
    | x :: xs => xs.foldl max x

/-- Method `Data.covariance_matrix(d, sigma_b, f)`: clamp the exposure, print
the diagnostic warning when `sigma_b * np.max(f) < 1` (the Boolean component
records whether the warning fired), clip the data at zero, and return
`d_pos/f + sigma_b**2`. -/
def covariance_matrix (d : List ℚ) (sigma_b : ℚ) (f : ExposureInfo) : Bool × Option (List ℚ) :=
  let f2 := clampExposure f
  let warn := decide (sigma_b * expMax f2 < 1)
  let d_pos := d.map (fun x => if 0 ≤ x then x else 0)
  let sigma : Option (List ℚ) :=
    match f2 with
    | .scalar t => some (d_pos.map (fun x => x / t + sigma_b ^ 2))
    | .map m => (npBinOp (fun x y => x / y) d_pos m).map (fun q => q.map (fun x => x + sigma_b ^ 2))
  (warn, sigma)

/-- Content of the caller's exposure-map array after `covariance_matrix`
returns: source lines 208-209 assign the mean-based floor into `f` in place,
so the caller's array holds the clamped values. -/
def covariance_exposure_after (f : List ℚ) : List ℚ := clampMap f

/-- Content of the caller's `exposure_map` array after `Data.__init__`:
source line 37, `exp_map[exp_map <= 0] = 10**(-3)`, executed in place on the
supplied array. -/
def init_exposure_map_after (exp_map : List ℚ) : List ℚ :=
  exp_map.map (fun x => if x ≤ 0 then 1 / 1000 else x)

/-- Content of the caller's `mask` array after `Data.__init__`: source lines
56-57 alias `self._mask_pure = kwargs_data['mask']` and then execute
`self._mask_pure[self._idex_mask == 0] = 0` in place on the supplied array. -/
def init_mask_pure_after (mask idex_mask : List ℚ) : List ℚ :=
  List.zipWith (fun m i => if i = 0 then 0 else m) mask idex_mask

/-- Source lines 35-38 of `Data.__init__` as they prepare exposure
information before `covariance_matrix` is called: a supplied `exposure_map`
has its non-positive entries replaced by `10**(-3)` in place, a scalar
`exp_time` is passed through. -/
def init_exposure : ExposureInfo → ExposureInfo
  | .scalar t => .scalar t
  | .map m => .map (init_exposure_map_after m)

/-- Length compatibility between an exposure and a data vector: in the
constructed object both the active data and an exposure map are filtered by
the same index mask, so they have equal lengths. -/
def expLenOk : ExposureInfo → List ℚ → Prop
  | .scalar _, _ => True
  | .map m, d => m.length = d.length

/-- Method `Data.reduced_residuals(model, error_map)`:
`(model - data) / np.sqrt(C_D + |error_map|) * mask`.  `np_sqrt` is numpy's
elementwise square root, taken as a parameter of the model because ℚ has no
square roots and no claim under study depends on its values (only on the
shape behaviour, which is pointwise). -/
def reduced_residuals (D : DataStore) (np_sqrt : ℚ → ℚ) (model : List ℚ) (error_map : ℚ) :
    Option (List ℚ) :=
  (npBinOp (fun a b => a - b) model D._data).bind fun diff =>
  (npBinOp (fun a b => a / b) diff ((D.C_D.map (fun c => c + |error_map|)).map np_sqrt)).bind
    fun q => npBinOp (fun a b => a * b) q D.mask

/-- Method `Data.log_likelihood(model, model_error)`:
`X2 = (model - data)**2 / (C_D + |model_error|) * mask; logL = -sum(X2)/2`. -/
def log_likelihood (D : DataStore) (model : List ℚ) (model_error : ℚ) : Option ℚ :=
  (npBinOp (fun a b => a - b) model D._data).bind fun diff =>
  (npBinOp (fun a b => a / b) (diff.map (fun x => x ^ 2))
      (D.C_D.map (fun c => c + |model_error|))).bind fun q =>
  (npBinOp (fun a b => a * b) q D.mask).map fun X2 => -(X2.sum) / 2

/-- Method `Data.reduced_chi2(model, error_map)`:
`chi2 = (model - data)**2 / (C_D + |error_map|) * mask / sum(mask);
 return sum(chi2)`. -/
def reduced_chi2 (D : DataStore) (model : List ℚ) (error_map : ℚ) : Option ℚ :=
  (npBinOp (fun a b => a - b) model D._data).bind fun diff =>
  (npBinOp (fun a b => a / b) (diff.map (fun x => x ^ 2))
      (D.C_D.map (fun c => c + |error_map|))).bind fun q =>
  (npBinOp (fun a b => a * b) q D.mask).map fun v =>
    (v.map (fun x => x / D.mask.sum)).sum

/-- Method `Data.psf_convolution(grid, grid_scale, **kwargs)`.  The pixel
branch reads `kwargs['kernel_pixel']` (or builds a subgrid-refined kernel
from `kwargs['kernel_point_source']` when `psf_subgrid` is set), then checks
`'kernel_fft' in kwargs` but reads `kwargs['kernel_pixel_fft']` outside the
`try`, so that lookup can raise an uncaught `KeyError`; only the
`fft.fftconvolve` call itself sits inside the `try`, whose bare `except`
falls back to `signal.fftconvolve`. -/
def psf_convolution (ext : ExtOps) (D : DataStore) (grid : List (List ℚ)) (grid_scale : ℚ)
    (kw : PSFKwargs) : Except PyErr (List (List ℚ)) :=
  let psf_type := kw.psf_type.getD "NONE"
  if psf_type = "NONE" then .ok grid
  else if psf_type = "gaussian" then
    match kw.sigma with
    | none => .error (.keyError "sigma")
    | some s =>
      let sigma := s / grid_scale
      let sigma_truncate :=
        match kw.truncate with
        | some t => t / grid_scale
        | none => 3 / grid_scale
      .ok (ext.gaussian_filter grid sigma (sigma_truncate * sigma))
  else if psf_type = "pixel" then
    let kres : Except PyErr (List (List ℚ)) :=
      if D._psf_subgrid then
      match kw.kernel_pixel with
      | none => .error (.keyError "kernel_pixel")
      | some kp =>
        match kw.kernel_point_source with
        | none => .error (.keyError "kernel_point_source")
        | some kps =>
          let n := kp.length
          let kernel := ext.subgrid_kernel kps D._subgrid_res
          let n_new := n * D._subgrid_res
          let n_new := if n_new % 2 = 0 then n_new - 1 else n_new
          .ok (ext.cut_psf kernel n_new)
    else
      match kw.kernel_pixel with
      | none => .error (.keyError "kernel_pixel")
      | some kp => .ok kp
    kres.bind fun kernel =>
    if kw.kernel_fft.isSome then
      match kw.kernel_pixel_fft with
      | none => .error (.keyError "kernel_pixel_fft")
      | some kernel_fft =>
        match ext.fft_fftconvolve grid kernel kernel_fft with
        | some img_conv1 => .ok img_conv1
        | none => .ok (ext.signal_fftconvolve grid kernel)
    else .ok (ext.signal_fftconvolve grid kernel)
  else .error (.valueError psf_type)

/-- Source line 320 of `re_size_convolve`: the Python expression
`kwargs_psf == 'pixel'` compares the kwargs dict itself with the string
`'pixel'`; in Python a dict never equals a string, so the expression is
always `False`. -/
def kwargsEqStrPixel (_ : PSFKwargs) : Bool := false

/-- Method `Data.re_size_convolve(image, kwargs_psf, unconvolved)`: scatter
the active vector to the subgrid-resolution image; when unconvolved or the
PSF type is `'NONE'`, only bin; otherwise branch on
`kwargs_psf == 'pixel' and not self._psf_subgrid` (bin first, then convolve)
versus the general case (convolve at subgrid scale, then bin); finally
compact back to an active vector. -/
def re_size_convolve (ext : ExtOps) (D : DataStore) (image : List ℚ) (kw : PSFKwargs)
    (unconvolved : Bool) : Except PyErr (List ℚ) :=
  let image2 := D.array2image image D._subgrid_res
  if unconvolved then .ok (D.image2array (ext.re_size image2 D._subgrid_res))
  else
    match kw.psf_type with
    | none => .error (.keyError "psf_type")
    | some pt =>
      if pt = "NONE" then .ok (D.image2array (ext.re_size image2 D._subgrid_res))
      else
        let gridScale := D.deltaPix / (D._subgrid_res : ℚ)
        if kwargsEqStrPixel kw && !D._psf_subgrid then
          (psf_convolution ext D (ext.re_size image2 D._subgrid_res) gridScale kw).map
            (fun g => D.image2array g)
        else
          (psf_convolution ext D image2 gridScale kw).map
            (fun g => D.image2array (ext.re_size g D._subgrid_res))

/-- Concrete store for witnesses: a 2x2 grid whose index mask keeps the two
diagonal pixels, so the active data vector has length 2. -/
def Dex : DataStore where
  _data := [1, 2]
  _idex_mask := [1, 0, 0, 1]
  _idex_mask_bool := true
  _idex_mask_sub := [1, 0, 0, 1]
  C_D := [1, 1]
  _mask := [1, 1]
  _mask_lens_light := [1, 1]
  _lens_light_mask := false
  _nx := 2
  _ny := 2
  _subgrid_res := 1
  _psf_subgrid := false
  deltaPix := 1

/-- Concrete store for the convolution claims: a 1x1 native grid with
subgrid resolution 2 (so the subgrid image is 2x2), no index mask, and no
subgrid PSF refinement. -/
def D1 : DataStore where
  _data := []
  _idex_mask := []
  _idex_mask_bool := false
  _idex_mask_sub := []
  C_D := []
  _mask := []
  _mask_lens_light := []
  _lens_light_mask := false
  _nx := 1
  _ny := 1
  _subgrid_res := 2
  _psf_subgrid := false
  deltaPix := 1

/-- Concrete external operations for witnesses, chosen so that binning and
convolving do not commute: binning sums the whole grid into one pixel and the
general convolution adds 1 to every entry; the precomputed-kernel fast path
always fails (raises). -/
def extC : ExtOps where
  re_size := fun g _ => [[g.flatten.sum]]
  gaussian_filter := fun g _ _ => g
  signal_fftconvolve := fun g _ => g.map (fun r => r.map (fun x => x + 1))
  fft_fftconvolve := fun _ _ _ => none
  subgrid_kernel := fun g _ => g
  cut_psf := fun g _ => g

/-- Kwargs of a plain pixel-kernel PSF (no frequency-domain kernel). -/
def kwPix : PSFKwargs where
  psf_type := some "pixel"
  sigma := none
  truncate := none
  kernel_pixel := some [[1]]
  kernel_point_source := none
  kernel_fft := none
  kernel_pixel_fft := none

/-- Kwargs of a pixel-kernel PSF whose dict contains the key `kernel_fft`
but not the key `kernel_pixel_fft`. -/
def kwFftMissing : PSFKwargs where
  psf_type := some "pixel"
  sigma := none
  truncate := none
  kernel_pixel := some [[1]]
  kernel_point_source := none
  kernel_fft := some [[1]]
  kernel_pixel_fft := none

/-- Kwargs of a pixel-kernel PSF carrying both frequency-domain keys. -/
def kwFftBoth : PSFKwargs where
  psf_type := some "pixel"
  sigma := none
  truncate := none
  kernel_pixel := some [[1]]
  kernel_point_source := none
  kernel_fft := some [[1]]
  kernel_pixel_fft := some [[1]]

/-! ### Shared list lemmas -/

theorem chunkRows_flatten (w : ℕ) (hw : 0 < w) : (l : List α) → (chunkRows w l).flatten = l
  | [] => by simp [chunkRows]
  | x :: xs => by
    rw [chunkRows, if_neg (by omega)]
    rw [List.flatten_cons, chunkRows_flatten w hw ((x :: xs).drop w)]
    exact List.take_append_drop w (x :: xs)
termination_by l => l.length
decreasing_by simp; omega

theorem chunkRows_uniform (w : ℕ) (hw : 0 < w) :
    (l : List α) → w ∣ l.length → ∀ r ∈ chunkRows w l, r.length = w
  | [], _ => by simp [chunkRows]
  | x :: xs, hdvd => by
    rw [chunkRows, if_neg (by omega)]
    have hle : w ≤ (x :: xs).length := Nat.le_of_dvd (by simp) hdvd
    intro r hr
    rcases List.mem_cons.mp hr with heq | hmem
    · rw [heq, List.length_take]
      omega
    · have hdvd2 : w ∣ ((x :: xs).drop w).length := by
        rw [List.length_drop]
        exact Nat.dvd_sub' hdvd dvd_rfl
      exact chunkRows_uniform w hw ((x :: xs).drop w) hdvd2 r hmem
termination_by l => l.length
decreasing_by simp; omega

theorem chunkRows_of_flatten (w : ℕ) (hw : 0 < w) (L : List (List α))
    (hL : ∀ r ∈ L, r.length = w) : chunkRows w L.flatten = L := by
  induction L with
  | nil => simp [chunkRows]
  | cons r Ls ih =>
    have hr : r.length = w := hL r (List.mem_cons_self r Ls)
    cases r with
    | nil => simp at hr; omega
    | cons y ys =>
      rw [List.flatten_cons, show ((y :: ys) ++ Ls.flatten) = y :: (ys ++ Ls.flatten) from rfl,
        chunkRows, if_neg (by omega)]
      rw [show (y :: (ys ++ Ls.flatten)) = ((y :: ys) ++ Ls.flatten) from rfl]
      rw [List.take_left' hr, List.drop_left' hr]
      rw [ih (fun s hs => hL s (List.mem_cons_of_mem (y :: ys) hs))]

theorem np_repeat_append (l₁ l₂ : List α) (k : ℕ) :
    np_repeat (l₁ ++ l₂) k = np_repeat l₁ k ++ np_repeat l₂ k := by
  induction l₁ with
  | nil => simp [np_repeat]
  | cons x xs ih => simp [np_repeat, ih]

theorem np_repeat_flatten (L : List (List α)) (k : ℕ) :
    np_repeat L.flatten k = (L.map (fun r => np_repeat r k)).flatten := by
  induction L with
  | nil => simp [np_repeat]
  | cons r Ls ih => rw [List.flatten_cons, np_repeat_append, ih]; simp

theorem np_repeat_length (l : List α) (k : ℕ) : (np_repeat l k).length = l.length * k := by
  induction l with
  | nil => simp [np_repeat]
  | cons x xs ih => simp [np_repeat, ih]; ring

theorem np_repeat_one (l : List α) : np_repeat l 1 = l := by
  induction l with
  | nil => rfl
  | cons x xs ih => simp [np_repeat, ih]

theorem np_repeat_mem {x : α} {l : List α} {k : ℕ} (h : x ∈ np_repeat l k) : x ∈ l := by
  induction l with
  | nil => simp [np_repeat] at h
  | cons y ys ih =>
    rw [np_repeat] at h
    rcases List.mem_append.mp h with h1 | h2
    · rw [List.eq_of_mem_replicate h1]; exact List.mem_cons_self y ys
    · exact List.mem_cons_of_mem y (ih h2)

theorem np_repeat_getElem (l : List α) (k i a : ℕ) (ha : a < k) :
    (np_repeat l k)[i * k + a]? = l[i]? := by
  induction l generalizing i with
  | nil => simp [np_repeat]
  | cons x xs ih =>
    cases i with
    | zero =>
      rw [np_repeat]
      rw [List.getElem?_append_left (by simp; omega)]
      simp [ha]
    | succ i =>
      rw [np_repeat, show (i + 1) * k + a = k + (i * k + a) by ring,
        List.getElem?_append_right (by simp)]
      simp only [List.length_replicate, Nat.add_sub_cancel_left]
      exact (ih i).trans (by simp)

theorem flatten_getElem_uniform (L : List (List α)) (w : ℕ) (hw : ∀ r ∈ L, r.length = w) :
    ∀ (q t : ℕ), t < w → L.flatten[q * w + t]? = L[q]?.bind (fun r => r[t]?) := by
  induction L with
  | nil => simp
  | cons r Ls ih =>
    intro q t ht
    have hr : r.length = w := hw r (List.mem_cons_self r Ls)
    cases q with
    | zero =>
      rw [List.flatten_cons, Nat.zero_mul, Nat.zero_add,
        List.getElem?_append_left (by omega)]
      simp
    | succ q =>
      rw [List.flatten_cons, show (q + 1) * w + t = r.length + (q * w + t) by rw [hr]; ring,
        List.getElem?_append_right (Nat.le_add_right _ _)]
      rw [Nat.add_sub_cancel_left]
      rw [ih (fun s hs => hw s (List.mem_cons_of_mem r hs)) q t ht]
      simp

theorem filter_scatter_filter (mask arr : List ℚ) (h : mask.length = arr.length) :
    filterByMask mask (scatterByMask mask (filterByMask mask arr)) = filterByMask mask arr := by
  induction mask generalizing arr with
  | nil => simp [filterByMask, scatterByMask]
  | cons m ms ih =>
    cases arr with
    | nil => simp at h
    | cons x xs =>
      have h2 : ms.length = xs.length := by simpa using h
      by_cases hm : m = 1
      · subst hm
        simp [filterByMask, scatterByMask, ih xs h2]
      · simp [filterByMask, scatterByMask, hm, ih xs h2]


theorem zipWith_sub_self (l : List ℚ) :
    List.zipWith (fun a b => a - b) l l = List.replicate l.length 0 := by
  induction l with
  | nil => rfl
  | cons x xs ih => simp [ih, List.replicate_succ]

theorem zipWith_zero_left (f : ℚ → ℚ → ℚ) (h : ∀ y, f 0 y = 0) :
    (n : ℕ) → (l : List ℚ) →
      List.zipWith f (List.replicate n 0) l = List.replicate (min n l.length) 0
  | 0, _ => by simp
  | _ + 1, [] => by simp
  | n + 1, y :: ys => by
    simp only [List.replicate_succ, List.zipWith_cons_cons, h y,
      zipWith_zero_left f h n ys, List.length_cons, Nat.succ_min_succ]

theorem sum_map_div (l : List ℚ) (S : ℚ) : (l.map (fun x => x / S)).sum = l.sum / S := by
  induction l with
  | nil => simp
  | cons x xs ih => simp [ih, add_div]

theorem zipWith_div_add_sq_pos (sb : ℚ) (hsb : 0 < sb) :
    (a b : List ℚ) → (∀ x ∈ a, 0 ≤ x) → (∀ y ∈ b, 0 < y) →
      ∀ v ∈ (List.zipWith (fun x y => x / y) a b).map (fun x => x + sb ^ 2), 0 < v
  | [], _, _, _ => by simp
  | _ :: _, [], _, _ => by simp
  | x :: xs, y :: ys, ha, hb => by
    intro v hv
    simp only [List.zipWith_cons_cons, List.map_cons, List.mem_cons] at hv
    rcases hv with hv | hv
    · have hx : 0 ≤ x := ha x (List.mem_cons_self x xs)
      have hy : 0 < y := hb y (List.mem_cons_self y ys)
      have : 0 ≤ x / y := div_nonneg hx hy.le
      rw [hv]
      have := pow_pos hsb 2
      linarith
    · exact zipWith_div_add_sq_pos sb hsb xs ys
        (fun z hz => ha z (List.mem_cons_of_mem x hz))
        (fun z hz => hb z (List.mem_cons_of_mem y hz)) v hv

theorem clampMap_pos (f : List ℚ) (hf : ∀ x ∈ f, 0 < x) : ∀ y ∈ clampMap f, 0 < y := by
  cases f with
  | nil => simp [clampMap]
  | cons a as =>
    have hsum : 0 < (a :: as).sum := List.sum_pos _ hf (by simp)
    have hlen : (0 : ℚ) < ((a :: as).length : ℚ) := by
      exact_mod_cast Nat.succ_pos as.length
    have hmean : 0 < (a :: as).sum / ((a :: as).length : ℚ) := div_pos hsum hlen
    intro y hy
    simp only [clampMap, List.mem_map] at hy
    obtain ⟨x, hx, hxy⟩ := hy
    rw [← hxy]
    split
    · positivity
    · exact hf x hx

theorem init_exposure_map_after_pos (m : List ℚ) :
    ∀ x ∈ init_exposure_map_after m, 0 < x := by
  intro x hx
  simp only [init_exposure_map_after, List.mem_map] at hx
  obtain ⟨z, hz, hzx⟩ := hx
  rw [← hzx]
  split
  · norm_num
  · rename_i hzpos
    push_neg at hzpos
    exact hzpos

theorem clampMap_length (f : List ℚ) : (clampMap f).length = f.length := by
  simp [clampMap]

/-! ### Claim theorems -/

/-- C2 counterexample: at `sigma_background = 2` and scalar exposure 1 the
product `sigma_b * max(exposure)` is at least 1, yet `covariance_matrix`
does not emit the warning (and still returns a result), refuting the claim
that the warning fires exactly when the product is at least 1. -/
theorem C2_covariance_warning_counterexample :
    (1 : ℚ) ≤ 2 * expMax (clampExposure (ExposureInfo.scalar 1)) ∧
    (covariance_matrix [1] 2 (ExposureInfo.scalar 1)).1 = false ∧
    (covariance_matrix [1] 2 (ExposureInfo.scalar 1)).2 = some [5] := by
  refine ⟨?_, ?_, ?_⟩ <;> norm_num [covariance_matrix, clampExposure, expMax]

/-- C2 (amended): `covariance_matrix` emits its non-fatal diagnostic warning
exactly when `backgroundSigma * max(clamped exposure) < 1`, and the variance
computation proceeds and returns a result whether or not the warning
fires. -/
theorem C2_covariance_warning_amended (d : List ℚ) (sigma_b : ℚ) (e : ExposureInfo)
    (h : expLenOk e d) :
    ((covariance_matrix d sigma_b e).1 = true ↔
      sigma_b * expMax (clampExposure e) < 1) ∧
    ((covariance_matrix d sigma_b e).2).isSome = true := by
  constructor
  · simp [covariance_matrix]
  · cases e with
    | scalar t => simp [covariance_matrix, clampExposure]
    | map m =>
      have h2 : m.length = d.length := h
      have hlen : (d.map (fun x => if 0 ≤ x then x else 0)).length = (clampMap m).length := by
        simp [clampMap_length, h2]
      simp [covariance_matrix, clampExposure, npBinOp, hlen]

/-- C2 witness: at `sigma_background = 1/2` and scalar exposure 1 the product
is below 1, the warning fires, and a result is returned. -/
theorem C2_covariance_warning_witness :
    expLenOk (ExposureInfo.scalar 1) [1] ∧
    (((covariance_matrix [1] (1/2) (ExposureInfo.scalar 1)).1 = true ↔
        (1 : ℚ)/2 * expMax (clampExposure (ExposureInfo.scalar 1)) < 1) ∧
      ((covariance_matrix [1] (1/2) (ExposureInfo.scalar 1)).2).isSome = true) :=
  ⟨trivial, C2_covariance_warning_amended [1] (1/2) (ExposureInfo.scalar 1) trivial⟩

/-- C4: the construction and `covariance_matrix` do mutate caller-supplied
arrays, contrary to the claim: after construction the caller's `mask` array
is zeroed where the index mask is 0 and the caller's `exposure_map` array
has its non-positive entries replaced, and after `covariance_matrix` the
caller's exposure array holds the mean-floored values. -/
theorem C4_caller_arrays_mutated :
    init_mask_pure_after [1, 1] [1, 0] ≠ [1, 1] ∧
    init_exposure_map_after [-1, 2] ≠ [-1, 2] ∧
    covariance_exposure_after [1, 100] ≠ [1, 100] := by
  refine ⟨?_, ?_, ?_⟩ <;>
    norm_num [init_mask_pure_after, init_exposure_map_after, covariance_exposure_after,
      clampMap]

/-- C3 counterexample: a model vector of length 1 against a stored active
data vector of length 2 has a differing length, yet all three fit statistics
return a value (numpy length-1 broadcasting) instead of failing. -/
theorem C3_broadcast_counterexample :
    ([5] : List ℚ).length ≠ Dex._data.length ∧
    (reduced_residuals Dex (fun x => x) [5] 0).isSome = true ∧
    (log_likelihood Dex [5] 0).isSome = true ∧
    (reduced_chi2 Dex [5] 0).isSome = true := by
  refine ⟨?_, ?_, ?_, ?_⟩ <;>
    norm_num [reduced_residuals, log_likelihood, reduced_chi2, npBinOp, Dex, DataStore.mask]

/-- C3 (amended): whenever the model length differs from the stored active
length and neither of the two lengths is 1 (the numpy broadcasting
exception), each of the three fit statistics fails with the dimension
mismatch error (`none`) rather than returning a value. -/
theorem C3_dimension_mismatch_amended (D : DataStore) (np_sqrt : ℚ → ℚ) (model : List ℚ)
    (e : ℚ) (h1 : model.length ≠ D._data.length) (h2 : model.length ≠ 1)
    (h3 : D._data.length ≠ 1) :
    reduced_residuals D np_sqrt model e = none ∧ log_likelihood D model e = none ∧
    reduced_chi2 D model e = none := by
  have hnone : npBinOp (fun a b => a - b) model D._data = none := by
    simp [npBinOp, h1, h2, h3]
  simp [reduced_residuals, log_likelihood, reduced_chi2, hnone]

/-- C3 witness: a length-3 model against the length-2 stored data of `Dex`
makes all three statistics fail. -/
theorem C3_dimension_mismatch_witness :
    ([5, 6, 7] : List ℚ).length ≠ Dex._data.length ∧ ([5, 6, 7] : List ℚ).length ≠ 1 ∧
    Dex._data.length ≠ 1 ∧
    (reduced_residuals Dex (fun x => x) [5, 6, 7] 0 = none ∧
      log_likelihood Dex [5, 6, 7] 0 = none ∧ reduced_chi2 Dex [5, 6, 7] 0 = none) :=
  ⟨by norm_num [Dex], by norm_num, by norm_num [Dex],
    C3_dimension_mismatch_amended Dex (fun x => x) [5, 6, 7] 0 (by norm_num [Dex])
      (by norm_num) (by norm_num [Dex])⟩

/-- C9: when the model equals the stored data entry for entry and the model
error term is 0, `log_likelihood` returns 0 and `reduced_chi2` returns 0. -/
theorem C9_exact_match_zero (D : DataStore) (hC : D.C_D.length = D._data.length)
    (hm : D.mask.length = D._data.length) :
    log_likelihood D D._data 0 = some 0 ∧ reduced_chi2 D D._data 0 = some 0 := by
  have h1 : npBinOp (fun a b => a - b) D._data D._data
      = some (List.replicate D._data.length 0) := by
    simp [npBinOp, zipWith_sub_self]
  have h2 : npBinOp (fun a b => a / b) (List.replicate D._data.length 0) D.C_D
      = some (List.replicate D._data.length 0) := by
    unfold npBinOp
    rw [if_pos (by simp [hC])]
    rw [zipWith_zero_left _ (fun y => zero_div y), hC]
    simp
  have h3 : npBinOp (fun a b => a * b) (List.replicate D._data.length 0) D.mask
      = some (List.replicate D._data.length 0) := by
    unfold npBinOp
    rw [if_pos (by simp [hm])]
    rw [zipWith_zero_left _ (fun y => zero_mul y), hm]
    simp
  constructor
  · simp [log_likelihood, h1, h2, h3]
  · simp [reduced_chi2, h1, h2, h3]

/-- C9 witness: the statistics evaluate to 0 on the concrete store `Dex`
with its own data as the model. -/
theorem C9_exact_match_zero_witness :
    Dex.C_D.length = Dex._data.length ∧ Dex.mask.length = Dex._data.length ∧
    (log_likelihood Dex Dex._data 0 = some 0 ∧ reduced_chi2 Dex Dex._data 0 = some 0) :=
  ⟨by norm_num [Dex], by norm_num [Dex, DataStore.mask],
    C9_exact_match_zero Dex (by norm_num [Dex]) (by norm_num [Dex, DataStore.mask])⟩

/-- C10: for a model of the stored active length and any scalar model-error
term, `reduced_chi2` equals `-2 * log_likelihood` divided by the sum of the
fit mask. -/
theorem C10_chi2_is_scaled_logL (D : DataStore) (model : List ℚ) (e : ℚ)
    (hlen : model.length = D._data.length) (hC : D.C_D.length = D._data.length)
    (hm : D.mask.length = D._data.length) (_hS : D.mask.sum ≠ 0) :
    ∃ L, log_likelihood D model e = some L ∧
      reduced_chi2 D model e = some (-2 * L / D.mask.sum) := by
  have h1 : npBinOp (fun a b => a - b) model D._data
      = some (List.zipWith (fun a b => a - b) model D._data) := by
    simp [npBinOp, hlen]
  have hdifflen : (List.zipWith (fun a b => a - b) model D._data).length
      = D._data.length := by
    simp [hlen]
  have h2 : npBinOp (fun a b => a / b)
      ((List.zipWith (fun a b => a - b) model D._data).map (fun x => x ^ 2))
      (D.C_D.map (fun c => c + |e|))
      = some (List.zipWith (fun a b => a / b)
          ((List.zipWith (fun a b => a - b) model D._data).map (fun x => x ^ 2))
          (D.C_D.map (fun c => c + |e|))) := by
    unfold npBinOp
    rw [if_pos (by simp [hdifflen, hC])]
  have h3 : npBinOp (fun a b => a * b)
      (List.zipWith (fun a b => a ^ 2 / (b + |e|))
        (List.zipWith (fun a b => a - b) model D._data) D.C_D) D.mask
      = some (List.zipWith (fun a b => a * b)
          (List.zipWith (fun a b => a ^ 2 / (b + |e|))
            (List.zipWith (fun a b => a - b) model D._data) D.C_D) D.mask) := by
    unfold npBinOp
    rw [if_pos (by simp [hdifflen, hC, hm])]
  refine ⟨-(List.zipWith (fun a b => a * b)
      (List.zipWith (fun a b => a ^ 2 / (b + |e|))
        (List.zipWith (fun a b => a - b) model D._data) D.C_D) D.mask).sum / 2, ?_, ?_⟩
  · simp [log_likelihood, h1, h2, h3]
  · simp [reduced_chi2, h1, h2, h3, sum_map_div]
    ring

/-- C10 witness: the identity instantiated on the concrete store `Dex` with
model `[3, 4]` and model-error 1. -/
theorem C10_chi2_is_scaled_logL_witness :
    ([3, 4] : List ℚ).length = Dex._data.length ∧ Dex.C_D.length = Dex._data.length ∧
    Dex.mask.length = Dex._data.length ∧ Dex.mask.sum ≠ 0 ∧
    (∃ L, log_likelihood Dex [3, 4] 1 = some L ∧
      reduced_chi2 Dex [3, 4] 1 = some (-2 * L / Dex.mask.sum)) :=
  ⟨by norm_num [Dex], by norm_num [Dex], by norm_num [Dex, DataStore.mask],
    by norm_num [Dex, DataStore.mask],
    C10_chi2_is_scaled_logL Dex [3, 4] 1 (by norm_num [Dex]) (by norm_num [Dex])
      (by norm_num [Dex, DataStore.mask]) (by norm_num [Dex, DataStore.mask])⟩

/-- C5: for every data vector, every background sigma greater than 0, and
every exposure (scalar, or a map prepared by the construction-time clamping
of non-positive entries), every entry of the covariance vector returned by
`covariance_matrix` is strictly positive. -/
theorem C5_covariance_positive (d : List ℚ) (sigma_b : ℚ) (e : ExposureInfo)
    (hsb : 0 < sigma_b) (hlen : expLenOk e d) :
    ∃ σ, (covariance_matrix d sigma_b (init_exposure e)).2 = some σ ∧ ∀ v ∈ σ, 0 < v := by
  have hdpos : ∀ x ∈ d.map (fun x => if 0 ≤ x then x else 0), 0 ≤ x := by
    intro x hx
    simp only [List.mem_map] at hx
    obtain ⟨z, _, hzx⟩ := hx
    rw [← hzx]
    split
    · assumption
    · exact le_refl 0
  cases e with
  | scalar t =>
    refine ⟨(d.map (fun x => if 0 ≤ x then x else 0)).map
        (fun x => x / (if t ≤ 0 then 1 else t) + sigma_b ^ 2), rfl, ?_⟩
    intro v hv
    simp only [List.mem_map] at hv
    obtain ⟨x, hx, hxv⟩ := hv
    obtain ⟨z, hz, hzx⟩ := hx
    have hx0 : 0 ≤ x := by
      rw [← hzx]
      split
      · assumption
      · exact le_refl 0
    have ht2 : 0 < (if t ≤ 0 then (1 : ℚ) else t) := by
      split
      · norm_num
      · rename_i hts
        push_neg at hts
        exact hts
    have hq : 0 ≤ x / (if t ≤ 0 then (1 : ℚ) else t) := div_nonneg hx0 ht2.le
    have hp := pow_pos hsb 2
    rw [← hxv]
    linarith
  | map m =>
    have hm2pos : ∀ y ∈ clampMap (init_exposure_map_after m), 0 < y :=
      clampMap_pos _ (init_exposure_map_after_pos m)
    have h2 : m.length = d.length := hlen
    have hlen2 : (d.map (fun x => if 0 ≤ x then x else 0)).length
        = (clampMap (init_exposure_map_after m)).length := by
      simp [clampMap_length, init_exposure_map_after, h2]
    refine ⟨(List.zipWith (fun x y => x / y) (d.map (fun x => if 0 ≤ x then x else 0))
        (clampMap (init_exposure_map_after m))).map (fun x => x + sigma_b ^ 2), ?_, ?_⟩
    · simp only [covariance_matrix, init_exposure, clampExposure, npBinOp]
      rw [if_pos hlen2]
      rfl
    · exact zipWith_div_add_sq_pos sigma_b hsb _ _ hdpos hm2pos

/-- C5 witness: a data vector with a negative entry and an exposure map with
a zero entry still give a strictly positive covariance vector. -/
theorem C5_covariance_positive_witness :
    (0 : ℚ) < 1/2 ∧ expLenOk (ExposureInfo.map [0, 5]) [-1, 2] ∧
    (∃ σ, (covariance_matrix [-1, 2] (1/2) (init_exposure (ExposureInfo.map [0, 5]))).2
        = some σ ∧ ∀ v ∈ σ, 0 < v) :=
  ⟨by norm_num, rfl,
    C5_covariance_positive [-1, 2] (1/2) (ExposureInfo.map [0, 5]) (by norm_num) rfl⟩

/-- C1: contrary to the claim, the bin-first-then-convolve branch for an
unrefined pixel-kernel PSF is never taken: the guard on source line 320
compares the kwargs dict itself with the string `'pixel'`, which is always
false in Python, so for a pixel PSF with `psf_subgrid` disabled
`re_size_convolve` still convolves at subgrid resolution and then bins. -/
theorem C1_pixel_psf_convolves_at_subgrid (ext : ExtOps) (D : DataStore) (image : List ℚ)
    (kw : PSFKwargs) (h1 : kw.psf_type = some "pixel") (_h2 : D._psf_subgrid = false) :
    re_size_convolve ext D image kw false =
      (psf_convolution ext D (D.array2image image D._subgrid_res)
          (D.deltaPix / (D._subgrid_res : ℚ)) kw).map
        (fun g => D.image2array (ext.re_size g D._subgrid_res)) := by
  simp [re_size_convolve, h1, kwargsEqStrPixel]

/-- C1 witness: the convolve-at-subgrid-then-bin path evaluated on the
concrete store `D1` with external operations for which the two orders give
different results. -/
theorem C1_pixel_psf_convolves_at_subgrid_witness :
    kwPix.psf_type = some "pixel" ∧ D1._psf_subgrid = false ∧
    re_size_convolve extC D1 [1, 2, 3, 4] kwPix false =
      (psf_convolution extC D1 (D1.array2image [1, 2, 3, 4] D1._subgrid_res)
          (D1.deltaPix / (D1._subgrid_res : ℚ)) kwPix).map
        (fun g => D1.image2array (extC.re_size g D1._subgrid_res)) :=
  ⟨rfl, rfl, C1_pixel_psf_convolves_at_subgrid extC D1 [1, 2, 3, 4] kwPix rfl rfl⟩

/-- C8: a kwargs dict that contains the key `kernel_fft` but not the key
`kernel_pixel_fft` makes `psf_convolution` raise an uncaught `KeyError`
(the lookup on source line 295 sits outside the `try`), contradicting the
claim that fast-path failures are never surfaced; when both keys are present
and the precomputed-kernel call fails, the bare `except` does fall back to
the general convolution. -/
theorem C8_fft_keyerror_surfaces (ext : ExtOps) :
    psf_convolution ext D1 [[1]] 1 kwFftMissing
      = Except.error (PyErr.keyError "kernel_pixel_fft") ∧
    psf_convolution extC D1 [[1]] 1 kwFftBoth
      = Except.ok (extC.signal_fftconvolve [[1]] [[1]]) :=
  ⟨rfl, rfl⟩

/-- C6: for every raw image and index mask (and also with the identity fast
path when no mask was supplied), compacting, scattering back to the full
grid, and compacting again reproduces the first compaction exactly:
`toActive(toFull(toActive(img))) = toActive(img)`. -/
theorem C6_compaction_round_trip (D : DataStore) (img : List (List ℚ))
    (hny : 0 < D._ny)
    (hlen : D._idex_mask.length = (util_image2array img).length) :
    D.image2array (D.array2image (D.image2array img) 1) = D.image2array img := by
  cases hb : D._idex_mask_bool with
  | true =>
    simp only [DataStore.image2array, DataStore.array2image, util_array2image,
      util_image2array, hb, if_true, Nat.lt_irrefl, if_false, Nat.mul_one]
    rw [chunkRows_flatten D._ny hny]
    exact filter_scatter_filter D._idex_mask img.flatten hlen
  | false =>
    simp only [DataStore.image2array, DataStore.array2image, util_array2image,
      util_image2array, hb, if_false, Nat.mul_one]
    exact chunkRows_flatten D._ny hny img.flatten

/-- C6 witness: the round trip on the concrete masked store `Dex` and a
concrete 2x2 image. -/
theorem C6_compaction_round_trip_witness :
    0 < Dex._ny ∧ Dex._idex_mask.length = (util_image2array [[5, 6], [7, 8]]).length ∧
    Dex.image2array (Dex.array2image (Dex.image2array [[5, 6], [7, 8]]) 1)
      = Dex.image2array [[5, 6], [7, 8]] :=
  ⟨by norm_num [Dex], by norm_num [Dex, util_image2array],
    C6_compaction_round_trip Dex [[5, 6], [7, 8]] (by norm_num [Dex])
      (by norm_num [Dex, util_image2array])⟩

/-- C7: for `subgrid_res = 1` the derived subgrid index mask equals the index
mask exactly, and for `subgrid_res = k` the subgrid mask entry at subgrid
position `(i*k+a, j*k+b)` equals the native mask entry at `(i, j)` for all
offsets `a, b < k`: each native flag is replicated across its `k x k`
footprint. -/
theorem C7_subgrid_mask_block_upsampling (idex_mask : List ℚ) (k nx ny i j a b : ℕ)
    (hm : idex_mask.length = nx * ny) (hk : 0 < k) (hny : 0 < ny)
    (_hi : i < nx) (hj : j < ny) (ha : a < k) (hb : b < k) :
    _subgrid_idex idex_mask 1 nx ny = idex_mask ∧
    (_subgrid_idex idex_mask k nx ny)[(i * k + a) * (ny * k) + (j * k + b)]?
      = idex_mask[i * ny + j]? := by
  constructor
  · simp only [_subgrid_idex, util_array2image, util_image2array, np_repeat_one,
      Nat.mul_one]
    exact chunkRows_flatten ny hny idex_mask
  · have hdvd : ny ∣ idex_mask.length := ⟨nx, by rw [hm]; ring⟩
    have hRuni : ∀ r ∈ chunkRows ny idex_mask, r.length = ny :=
      chunkRows_uniform ny hny idex_mask hdvd
    have hflat : (chunkRows ny idex_mask).flatten = idex_mask :=
      chunkRows_flatten ny hny idex_mask
    have hstep1 : np_repeat idex_mask k
        = ((chunkRows ny idex_mask).map (fun r => np_repeat r k)).flatten := by
      conv_lhs => rw [← hflat]
      exact np_repeat_flatten _ k
    have hwpos : 0 < ny * k := Nat.mul_pos hny hk
    have hstep2 :
        chunkRows (ny * k) (((chunkRows ny idex_mask).map (fun r => np_repeat r k)).flatten)
          = (chunkRows ny idex_mask).map (fun r => np_repeat r k) := by
      apply chunkRows_of_flatten _ hwpos
      intro r hr
      simp only [List.mem_map] at hr
      obtain ⟨s, hs, hsr⟩ := hr
      rw [← hsr, np_repeat_length, hRuni s hs]
    have hmain : _subgrid_idex idex_mask k nx ny
        = (np_repeat ((chunkRows ny idex_mask).map (fun r => np_repeat r k)) k).flatten := by
      simp only [_subgrid_idex, util_array2image, util_image2array]
      rw [hstep1, hstep2]
    rw [hmain]
    have ht : j * k + b < ny * k := by
      have h1 : (j + 1) * k = j * k + k := Nat.succ_mul j k
      have h2 : (j + 1) * k ≤ ny * k := Nat.mul_le_mul_right k hj
      omega
    have huni2 : ∀ r ∈ np_repeat ((chunkRows ny idex_mask).map (fun r => np_repeat r k)) k,
        r.length = ny * k := by
      intro r hr
      have hr2 := np_repeat_mem hr
      simp only [List.mem_map] at hr2
      obtain ⟨s, hs, hsr⟩ := hr2
      rw [← hsr, np_repeat_length, hRuni s hs]
    rw [flatten_getElem_uniform _ (ny * k) huni2 (i * k + a) (j * k + b) ht]
    rw [np_repeat_getElem _ k i a ha]
    rw [List.getElem?_map]
    conv_rhs => rw [← hflat]
    rw [flatten_getElem_uniform _ ny hRuni i j hj]
    cases hopt : (chunkRows ny idex_mask)[i]? with
    | none => simp
    | some r => simp [np_repeat_getElem r k j b hb]

/-- C7 witness: the mask `[1,0,2,3]` on a 2x2 grid with `subgrid_res = 2`;
the subgrid entry in the footprint of native pixel `(1,0)` equals that native
entry. -/
theorem C7_subgrid_mask_block_upsampling_witness :
    ([1, 0, 2, 3] : List ℚ).length = 2 * 2 ∧
    (_subgrid_idex [1, 0, 2, 3] 1 2 2 = [1, 0, 2, 3] ∧
      (_subgrid_idex [1, 0, 2, 3] 2 2 2)[(1 * 2 + 1) * (2 * 2) + (0 * 2 + 1)]?
        = ([1, 0, 2, 3] : List ℚ)[1 * 2 + 0]?) :=
  ⟨rfl,
    C7_subgrid_mask_block_upsampling [1, 0, 2, 3] 2 2 2 1 0 1 1 rfl (by norm_num)
      (by norm_num) (by norm_num) (by norm_num) (by norm_num) (by norm_num)⟩
